import Mathlib

/-!
Verification of the generatio-pb core against its specification.

The Go source is shallowly embedded: Go strings are modelled as `String`
(or `List Char` where byte-level slicing matters), `time.Time` as `Nat`,
Go maps as association lists with overwrite-on-insert semantics, and
fallible operations as `Except`.  Calls into the Go standard library
(PBKDF2, AES-GCM, base64) are abstracted as parameters carrying the
library's documented contract; everything written in this repository is
translated concretely.
-/

/-! ## FAL model-identifier normalization (src/unnamed/part_008) -/

namespace Fal

/-- The byte sequence of the vendor prefix `"fal-ai/"`. -/
def falPrefix : List Char := "fal-ai/".toList

/-- Translation of `convertToFALModelID`: if the identifier already starts
with `"fal-ai/"` (and is strictly longer than the prefix), return it as-is,
otherwise prepend the prefix. -/
def convertToFALModelID (modelID : List Char) : List Char :=
  if 7 < modelID.length ∧ modelID.take 7 = falPrefix then
    modelID
  else
    falPrefix ++ modelID

/-- Translation of `getBaseModelID`: case table mapping known model ids
(with or without the vendor prefix) to their coarse base form; any other
identifier is returned unchanged. -/
def getBaseModelID (fullModelID : List Char) : List Char :=
  if fullModelID = "flux/schnell".toList then
    "fal-ai/flux".toList
  else if fullModelID = "hidream/hidream-i1-dev".toList ∨
      fullModelID = "hidream/hidream-i1-fast".toList then
    "fal-ai/hidream".toList
  else if fullModelID = "fal-ai/flux/schnell".toList then
    "fal-ai/flux".toList
  else if fullModelID = "fal-ai/hidream/hidream-i1-dev".toList ∨
      fullModelID = "fal-ai/hidream/hidream-i1-fast".toList then
    "fal-ai/hidream".toList
  else
    fullModelID

/-- Translation of the model identifier used by `Client.CheckStatus` to build
the status URL: the source hardcodes `modelID := "flux/schnell"` and then
applies both conversions. -/
def checkStatusBaseModelID : List Char :=
  getBaseModelID (convertToFALModelID "flux/schnell".toList)

/-- Translation of the model identifier used by `Client.CancelGeneration` to
build the cancel URL: the source hardcodes `modelID := "flux/schnell"` and
then applies both conversions. -/
def cancelGenerationBaseModelID : List Char :=
  getBaseModelID (convertToFALModelID "flux/schnell".toList)

/-- Translation of the model identifier used by `Client.CheckStatusWithModel`
to build the status URL from the caller-supplied model id. -/
def checkStatusWithModelBaseModelID (modelID : List Char) : List Char :=
  getBaseModelID modelID

end Fal

/-! ## Session store (src/internal/auth/cleanup.go, src/internal/models/types.go)

Go's `map[string]*Session` is modelled as an association list with
overwrite-on-insert; `time.Time` as `Nat`, with `a.After(b)` modelled as
`b < a`.  Every operation that reads the clock takes the current time `now`
as an explicit argument; the random UUID produced by `Create` is likewise an
explicit argument. -/

namespace Auth

/-- Translation of `models.Session` (the JSON-only fields are kept; the
struct is a plain value here, with mutation modelled by functional update). -/
structure Session where
  id : String
  userID : String
  falToken : String
  createdAt : Nat
  expiresAt : Nat
deriving DecidableEq, Repr

/-- Translation of `Session.IsExpired`: `time.Now().After(s.ExpiresAt)`. -/
def Session.IsExpired (s : Session) (now : Nat) : Bool :=
  decide (s.expiresAt < now)

/-- Translation of `Session.Clear`: zero the secret field. -/
def Session.Clear (s : Session) : Session :=
  { s with falToken := "" }

/-- Association-list lookup, the model of reading a Go map. -/
def lookupStr {α : Type} (k : String) : List (String × α) → Option α
  | [] => none
  | (k1, v1) :: rest => if k1 = k then some v1 else lookupStr k rest

/-- Association-list insert with overwrite, the model of Go map assignment. -/
def mapInsert {α : Type} (k : String) (v : α) : List (String × α) → List (String × α)
  | [] => [(k, v)]
  | (k1, v1) :: rest => if k1 = k then (k, v) :: rest else (k1, v1) :: mapInsert k v rest

/-- Association-list removal, the model of Go `delete`. -/
def mapErase {α : Type} (k : String) : List (String × α) → List (String × α)
  | [] => []
  | (k1, v1) :: rest => if k1 = k then rest else (k1, v1) :: mapErase k rest

/-- Translation of `SessionStore` (the mutex disappears in the sequential
model; `timeout` is the configured TTL). -/
structure SessionStore where
  sessions : List (String × Session)
  timeout : Nat
deriving DecidableEq, Repr

/-- The store produced by `NewSessionStore`. -/
def NewSessionStore (timeout : Nat) : SessionStore :=
  { sessions := [], timeout := timeout }

/-- Translation of `SessionStore.Create`; `sessionID` stands for the fresh
`uuid.New().String()`. -/
def SessionStore.Create (s : SessionStore) (now : Nat) (sessionID userID falToken : String) :
    Except String (String × SessionStore) :=
  if userID = "" then .error "user ID cannot be empty"
  else if falToken = "" then .error "FAL token cannot be empty"
  else
    let session : Session :=
      { id := sessionID, userID := userID, falToken := falToken
      , createdAt := now, expiresAt := now + s.timeout }
    .ok (sessionID, { s with sessions := mapInsert sessionID session s.sessions })

/-- Translation of `SessionStore.Delete` (clears the secret, then removes the
entry; the returned store is the post-state). -/
def SessionStore.Delete (s : SessionStore) (sessionID : String) :
    Except String Unit × SessionStore :=
  if sessionID = "" then (.error "session ID cannot be empty", s)
  else
    match lookupStr sessionID s.sessions with
    | none => (.ok (), s)
    | some _ => (.ok (), { s with sessions := mapErase sessionID s.sessions })

/-- Translation of `SessionStore.Get`: not-found for absent ids, and for an
entry past its expiry the entry is deleted (via `Delete`) and the expired
error is returned. -/
def SessionStore.Get (s : SessionStore) (now : Nat) (sessionID : String) :
    Except String Session × SessionStore :=
  if sessionID = "" then (.error "session ID cannot be empty", s)
  else
    match lookupStr sessionID s.sessions with
    | none => (.error "session not found", s)
    | some session =>
      if session.IsExpired now then
        (.error "session expired", (s.Delete sessionID).2)
      else
        (.ok session, s)

/-- Translation of `SessionStore.GetUserSession`: first stored session of the
user that is not expired. -/
def SessionStore.GetUserSession (s : SessionStore) (now : Nat) (userID : String) :
    Except String Session :=
  if userID = "" then .error "user ID cannot be empty"
  else
    match s.sessions.find? (fun kv => kv.2.userID == userID && !kv.2.IsExpired now) with
    | some kv => .ok kv.2
    | none => .error "no active session found for user"

/-- Translation of `SessionStore.DeleteUserSessions`: clears and removes every
session of the user. -/
def SessionStore.DeleteUserSessions (s : SessionStore) (userID : String) :
    Except String Unit × SessionStore :=
  if userID = "" then (.error "user ID cannot be empty", s)
  else
    (.ok (), { s with sessions := s.sessions.filter (fun kv => !(kv.2.userID == userID)) })

/-- Translation of `SessionStore.Cleanup`: every entry with
`now.After(ExpiresAt)` is cleared and removed.  The first component is the
post-state; the second records the cleared session values (the in-place
`session.Clear()` the source performs before deleting each entry). -/
def SessionStore.Cleanup (s : SessionStore) (now : Nat) :
    SessionStore × List Session :=
  ({ s with sessions := s.sessions.filter (fun kv => !kv.2.IsExpired now) },
   (s.sessions.filter (fun kv => kv.2.IsExpired now)).map (fun kv => kv.2.Clear))

/-- Translation of `SessionStats`. -/
structure SessionStats where
  totalSessions : Nat
  activeSessions : Nat
  expiredSessions : Nat
deriving DecidableEq, Repr

/-- Translation of `SessionStore.Stats`: one pass classifying every stored
session by `now.After(ExpiresAt)`. -/
def SessionStore.Stats (s : SessionStore) (now : Nat) : SessionStats :=
  { totalSessions := s.sessions.length
  , activeSessions := s.sessions.countP (fun kv => !kv.2.IsExpired now)
  , expiredSessions := s.sessions.countP (fun kv => kv.2.IsExpired now) }

/-- Translation of `SessionStore.ExtendSession`: errors on a missing or
already-expired session (leaving the store as it was), otherwise pushes
`ExpiresAt` to `now + timeout`. -/
def SessionStore.ExtendSession (s : SessionStore) (now : Nat) (sessionID : String) :
    Except String Unit × SessionStore :=
  if sessionID = "" then (.error "session ID cannot be empty", s)
  else
    match lookupStr sessionID s.sessions with
    | none => (.error "session not found", s)
    | some session =>
      if session.IsExpired now then
        (.error "session already expired", s)
      else
        let renewed : Session := { session with expiresAt := now + s.timeout }
        (.ok (), { s with sessions := mapInsert sessionID renewed s.sessions })

/-- One broker operation, for stating invariants over arbitrary call
sequences; each operation carries the clock value it observes. -/
inductive StoreOp where
  | create (now : Nat) (sessionID userID falToken : String)
  | get (now : Nat) (sessionID : String)
  | delete (sessionID : String)
  | deleteUser (userID : String)
  | extend (now : Nat) (sessionID : String)
  | cleanup (now : Nat)

/-- The store reached after one broker operation (results discarded). -/
def applyOp (s : SessionStore) : StoreOp → SessionStore
  | .create now sessionID userID falToken =>
    match s.Create now sessionID userID falToken with
    | .ok (_, s1) => s1
    | .error _ => s
  | .get now sessionID => (s.Get now sessionID).2
  | .delete sessionID => (s.Delete sessionID).2
  | .deleteUser userID => (s.DeleteUserSessions userID).2
  | .extend now sessionID => (s.ExtendSession now sessionID).2
  | .cleanup now => (s.Cleanup now).1

/-- The store reached after a sequence of broker operations. -/
def applyOps (ops : List StoreOp) (s : SessionStore) : SessionStore :=
  ops.foldl applyOp s

end Auth

/-! ## Credential vault (src/internal/crypto/encryption.go)

Go strings and byte slices are modelled as `List Nat` (byte values).  The
standard-library primitives the service calls are abstracted:

* `pbkdf2.Key` is an arbitrary deterministic function parameter `kdf`
  (password, salt, iteration count to key); determinism is all `Encrypt` /
  `Decrypt` rely on;
* the AES-256-GCM AEAD (`gcm.Seal` / `gcm.Open`) is a structure carrying the
  two contract facts the cipher documents: sealing appends a 16-byte tag,
  and opening a sealed message with the same key and nonce recovers the
  plaintext;
* `base64.StdEncoding` is a structure with an encoder, a decoder, the
  round-trip law, and the fact that only the empty input encodes to the
  empty string.

The random salt and nonce drawn from `crypto/rand` are explicit arguments,
with their lengths (`SaltSize = 32`, `NonceSize = 12`) as hypotheses. -/

namespace Crypto

/-- Byte strings. -/
abbrev Bytes : Type := List Nat

/-- Abstraction of `base64.StdEncoding`: encoder, decoder, and the contract
this code relies on. -/
structure B64Codec where
  encode : Bytes → Bytes
  decode : Bytes → Option Bytes
  decode_encode : ∀ b, decode (encode b) = some b
  encode_eq_nil : ∀ b, encode b = [] → b = []

/-- Abstraction of the AES-256-GCM AEAD obtained from
`cipher.NewGCM(aes.NewCipher(key))`: `seal key nonce plaintext` is the
ciphertext-plus-tag, `opn key nonce data` authenticates and decrypts. -/
structure AEAD where
  sealAE : Bytes → Bytes → Bytes → Bytes
  openAE : Bytes → Bytes → Bytes → Option Bytes
  sealAE_length : ∀ k n p, (sealAE k n p).length = p.length + 16
  openAE_sealAE : ∀ k n p, openAE k n (sealAE k n p) = some p

/-- `SaltSize` from the source. -/
def SaltSize : Nat := 32

/-- `NonceSize` from the source. -/
def NonceSize : Nat := 12

/-- Translation of `EncryptionService`. -/
structure EncryptionService where
  iterations : Nat

/-- Translation of `EncryptionService.deriveKey`:
`pbkdf2.Key(password, salt, iterations, KeySize, sha256.New)`. -/
def EncryptionService.deriveKey (e : EncryptionService)
    (kdf : Bytes → Bytes → Nat → Bytes) (password salt : Bytes) : Bytes :=
  kdf password salt e.iterations

/-- Translation of `EncryptResult` (both fields base64-encoded strings). -/
structure EncryptResult where
  encrypted : Bytes
  salt : Bytes
deriving DecidableEq, Repr

/-- The errors `Decrypt` distinguishes. -/
inductive DecryptError where
  | emptyEncrypted
  | emptySalt
  | emptyPassword
  | badEncoding
  | tooShort
  | openFailed
deriving DecidableEq, Repr

/-- Translation of `EncryptionService.Encrypt`: reject empty inputs, derive a
key from the fresh salt, seal with the fresh nonce, emit
`base64(nonce ++ sealed)` and `base64(salt)`.  (`gcm.Seal(nonce, nonce, pt,
nil)` appends the sealed bytes to the nonce.)  The fresh `salt` and `nonce`
produced by `crypto/rand` are passed in explicitly. -/
def EncryptionService.Encrypt (e : EncryptionService) (C : B64Codec) (A : AEAD)
    (kdf : Bytes → Bytes → Nat → Bytes) (salt nonce plaintext password : Bytes) :
    Option EncryptResult :=
  if plaintext = [] then none
  else if password = [] then none
  else
    let key := e.deriveKey kdf password salt
    let ciphertext := nonce ++ A.sealAE key nonce plaintext
    some { encrypted := C.encode ciphertext, salt := C.encode salt }

/-- Translation of `EncryptionService.Decrypt`: reject empty inputs, base64-
decode both arguments, enforce the minimum `NonceSize + 16` length, split off
the nonce, and let the AEAD tag check decide authenticity. -/
def EncryptionService.Decrypt (e : EncryptionService) (C : B64Codec) (A : AEAD)
    (kdf : Bytes → Bytes → Nat → Bytes) (encrypted salt password : Bytes) :
    Except DecryptError Bytes :=
  if encrypted = [] then .error .emptyEncrypted
  else if salt = [] then .error .emptySalt
  else if password = [] then .error .emptyPassword
  else
    match C.decode encrypted with
    | none => .error .badEncoding
    | some ciphertext =>
      match C.decode salt with
      | none => .error .badEncoding
      | some saltBytes =>
        if ciphertext.length < NonceSize + 16 then .error .tooShort
        else
          let key := e.deriveKey kdf password saltBytes
          let nonce := ciphertext.take NonceSize
          let ciphertextData := ciphertext.drop NonceSize
          match A.openAE key nonce ciphertextData with
          | none => .error .openFailed
          | some plaintext => .ok plaintext

/-- Translation of `EncryptionService.VerifyPassword`. -/
def EncryptionService.VerifyPassword (e : EncryptionService) (C : B64Codec) (A : AEAD)
    (kdf : Bytes → Bytes → Nat → Bytes) (encrypted salt password : Bytes) : Bool :=
  match e.Decrypt C A kdf encrypted salt password with
  | .ok _ => true
  | .error _ => false

/-- A concrete codec satisfying the base64 contract, used to exercise the
round-trip theorem on computable inputs. -/
def idCodec : B64Codec where
  encode := fun b => b
  decode := fun b => some b
  decode_encode := fun _ => rfl
  encode_eq_nil := fun _ h => h

/-- A concrete AEAD satisfying the stated contract (a 16-byte tag of zeros),
used to exercise the round-trip theorem on computable inputs. -/
def padAEAD : AEAD where
  sealAE := fun _ _ p => p ++ List.replicate 16 0
  openAE := fun _ _ c => some (c.take (c.length - 16))
  sealAE_length := fun _ _ p => by simp
  openAE_sealAE := fun _ _ p => by simp

end Crypto

/-! ## Model registry and parameter validation (src/internal/fal/interface.go)

Go's `interface{}` parameter values (as produced by JSON decoding) are
modelled by `JValue`; `float64` is modelled by `ℚ` (the claims under test
concern comparisons and integrality, not rounding), and `int` by `ℤ`.
`FALError` messages built by string concatenation are abbreviated to the
error code plus the offending key. -/

namespace Fal

/-- A dynamically typed parameter value (`interface{}` after JSON decoding). -/
inductive JValue where
  | vInt (n : ℤ)
  | vFloat (q : ℚ)
  | vStr (s : String)
  | vObj (fields : List (String × JValue))
  | vNull

/-- Go's `f == float64(int(f))` test: the float is integer-valued. -/
def ratIsIntegral (q : ℚ) : Bool :=
  q.den == 1

/-- Go's `int(f)` conversion (truncation toward zero); on the values the
validator converts it is exact, since it is guarded by `ratIsIntegral`. -/
def ratTrunc (q : ℚ) : ℤ :=
  Int.tdiv q.num (q.den : ℤ)

/-- Translation of `Parameter` (the fields validation reads). -/
structure Parameter where
  ptype : String
  min : Option ℚ
  max : Option ℚ
  options : List String
  required : Bool
deriving DecidableEq, Repr

/-- Translation of `ModelInfo` (the fields the verified code reads). -/
structure ModelInfo where
  name : String
  costPerImage : ℚ
  parameters : List (String × Parameter)
deriving DecidableEq, Repr

/-- Translation of `FALError`, with the dynamically concatenated message
abbreviated to the offending key. -/
structure FALError where
  code : String
  key : String
deriving DecidableEq, Repr

/-- Association-list lookup (reading a Go map). -/
def lookupKey {α : Type} (k : String) : List (String × α) → Option α
  | [] => none
  | (k1, v1) :: rest => if k1 = k then some v1 else lookupKey k rest

/-- Association-list insert with overwrite (Go map assignment). -/
def setKey {α : Type} (k : String) (v : α) : List (String × α) → List (String × α)
  | [] => [(k, v)]
  | (k1, v1) :: rest => if k1 = k then (k, v) :: rest else (k1, v1) :: setKey k v rest

/-- The parameter table shared by all three registry models' `image_size`. -/
def imageSizeOptions : List String :=
  ["square_hd", "square", "portrait_4_3", "portrait_16_9",
   "landscape_4_3", "landscape_16_9"]

/-- The `image_size` parameter entry of the registry models. -/
def imageSizeParam : Parameter :=
  { ptype := "object", min := none, max := none
  , options := imageSizeOptions, required := false }

/-- The `seed` parameter entry of the registry models. -/
def seedParam : Parameter :=
  { ptype := "integer", min := none, max := none, options := [], required := false }

/-- Translation of the `"flux/schnell"` entry of `SupportedModels`. -/
def fluxSchnell : ModelInfo :=
  { name := "flux/schnell"
  , costPerImage := 0.003
  , parameters :=
    [ ("image_size", imageSizeParam)
    , ("num_images",
        { ptype := "integer", min := some 1, max := some 4
        , options := [], required := false })
    , ("guidance_scale",
        { ptype := "float", min := some 1, max := some 20
        , options := [], required := false })
    , ("num_inference_steps",
        { ptype := "integer", min := some 1, max := some 50
        , options := [], required := false })
    , ("seed", seedParam) ] }

/-- Translation of the `"hidream/hidream-i1-dev"` entry of `SupportedModels`. -/
def hidreamDev : ModelInfo :=
  { name := "hidream/hidream-i1-dev"
  , costPerImage := 0.004
  , parameters :=
    [ ("image_size", imageSizeParam)
    , ("num_images",
        { ptype := "integer", min := some 1, max := some 4
        , options := [], required := false })
    , ("guidance_scale",
        { ptype := "float", min := some 1, max := some 20
        , options := [], required := false })
    , ("num_inference_steps",
        { ptype := "integer", min := some 10, max := some 100
        , options := [], required := false })
    , ("seed", seedParam) ] }

/-- Translation of the `"hidream/hidream-i1-fast"` entry of `SupportedModels`. -/
def hidreamFast : ModelInfo :=
  { name := "hidream/hidream-i1-fast"
  , costPerImage := 0.003
  , parameters :=
    [ ("image_size", imageSizeParam)
    , ("num_images",
        { ptype := "integer", min := some 1, max := some 4
        , options := [], required := false })
    , ("guidance_scale",
        { ptype := "float", min := some 1, max := some 15
        , options := [], required := false })
    , ("num_inference_steps",
        { ptype := "integer", min := some 4, max := some 20
        , options := [], required := false })
    , ("seed", seedParam) ] }

/-- Translation of `SupportedModels`. -/
def SupportedModels : List (String × ModelInfo) :=
  [ ("flux/schnell", fluxSchnell)
  , ("hidream/hidream-i1-dev", hidreamDev)
  , ("hidream/hidream-i1-fast", hidreamFast) ]

/-- Translation of `GetModel`. -/
def GetModel (name : String) : Option ModelInfo :=
  lookupKey name SupportedModels

/-- `invalid_parameter_type` error for a key. -/
def invalidType (key : String) : FALError :=
  { code := "invalid_parameter_type", key := key }

/-- `invalid_parameter_value` error for a key. -/
def invalidValue (key : String) : FALError :=
  { code := "invalid_parameter_value", key := key }

/-- `parameter_out_of_range` error for a key. -/
def outOfRange (key : String) : FALError :=
  { code := "parameter_out_of_range", key := key }

/-- Translation of the width/height checks inside the `image_size` object
branch: an `int` passes, an integer-valued `float64` is converted with
`int(f)`, anything else is a type error. -/
def checkDimension (errKey : String) (v : JValue) : Except FALError JValue :=
  match v with
  | .vInt _ => .ok v
  | .vFloat f =>
    if ratIsIntegral f then .ok (.vInt (ratTrunc f)) else .error (invalidType errKey)
  | _ => .error (invalidType errKey)

/-- Translation of the `switch param.Type` block of
`ModelInfo.ValidateParameters` for a single key: type checks and the
normalizations the source writes back into the parameter map.  A type string
matching no case is unchecked, as in the Go `switch` with no default. -/
def typeCheck (param : Parameter) (key : String) (value : JValue) :
    Except FALError JValue :=
  if param.ptype = "integer" then
    match value with
    | .vInt _ => .ok value
    | .vFloat f =>
      if ratIsIntegral f then .ok (.vInt (ratTrunc f)) else .error (invalidType key)
    | _ => .error (invalidType key)
  else if param.ptype = "float" then
    match value with
    | .vFloat _ => .ok value
    | .vInt n => .ok (.vFloat (n : ℚ))
    | _ => .error (invalidType key)
  else if param.ptype = "string" then
    match value with
    | .vStr _ => .ok value
    | _ => .error (invalidType key)
  else if param.ptype = "object" then
    if key = "image_size" then
      match value with
      | .vStr s =>
        if param.options ≠ [] then
          if param.options.contains s then .ok value else .error (invalidValue key)
        else .ok value
      | .vObj fields =>
        match lookupKey "width" fields, lookupKey "height" fields with
        | some w, some h =>
          (match checkDimension (key ++ ".width") w with
          | .error e => .error e
          | .ok w1 =>
            match checkDimension (key ++ ".height") h with
            | .error e => .error e
            | .ok h1 => .ok (.vObj (setKey "height" h1 (setKey "width" w1 fields))))
        | _, _ => .error (invalidValue key)
      | _ => .error (invalidType key)
    else
      match value with
      | .vObj _ => .ok value
      | _ => .error (invalidType key)
  else .ok value

/-- Translation of the `numValue` switch used by the range checks: an `int`
or `float64` contributes its numeric value, anything else leaves the Go
zero value `0`. -/
def numValue : JValue → ℚ
  | .vInt n => (n : ℚ)
  | .vFloat q => q
  | _ => 0

/-- `param.Min != nil && numValue < *param.Min`. -/
def belowMin (param : Parameter) (value : JValue) : Bool :=
  match param.min with
  | some lo => decide (numValue value < lo)
  | none => false

/-- `param.Max != nil && numValue > *param.Max`. -/
def aboveMax (param : Parameter) (value : JValue) : Bool :=
  match param.max with
  | some hi => decide (hi < numValue value)
  | none => false

/-- Validation of one `(key, value)` entry of the parameter map, translating
one iteration of the loop in `ModelInfo.ValidateParameters`: keys absent from
the schema are passed through unexamined; otherwise the type check runs,
then the min/max range checks (on the original value, as in the source),
then the enum-options check for every key other than `image_size`. -/
def validateOne (m : ModelInfo) (key : String) (value : JValue) :
    Except FALError JValue :=
  match lookupKey key m.parameters with
  | none => .ok value
  | some param =>
    match typeCheck param key value with
    | .error e => .error e
    | .ok v1 =>
      if belowMin param value then .error (outOfRange key)
      else if aboveMax param value then .error (outOfRange key)
      else if param.options ≠ [] ∧ key ≠ "image_size" then
        match value with
        | .vStr s =>
          if param.options.contains s then .ok v1 else .error (invalidValue key)
        | _ => .error (invalidType key)
      else .ok v1

/-- Translation of `ModelInfo.ValidateParameters`: every entry of the map is
validated; the first failure aborts; the in-place normalizations are
reflected in the returned map. -/
def ModelInfo.ValidateParameters (m : ModelInfo) (params : List (String × JValue)) :
    Except FALError (List (String × JValue)) :=
  match params with
  | [] => .ok []
  | (k, v) :: rest =>
    match validateOne m k v with
    | .error e => .error e
    | .ok v1 =>
      match m.ValidateParameters rest with
      | .error e => .error e
      | .ok rest1 => .ok ((k, v1) :: rest1)

/-! ### Generation client (src/unnamed/part_008)

The HTTP transport is abstracted: the queue's accepted-submission response
and the terminal response returned by `PollForCompletionWithModel` are
explicit arguments, so the definitions below capture exactly the local logic
of `SubmitGeneration` and `GenerateImage`. -/

/-- One entry of `GenerationResponse.Images`. -/
structure GenImage where
  url : String
  thumbnailURL : String
deriving DecidableEq, Repr

/-- Translation of `GenerationResponse` (the fields this core reads). -/
structure GenerationResponse where
  requestID : String
  status : String
  images : List GenImage
  cost : ℚ
deriving DecidableEq, Repr

/-- Translation of `GenerationRequest`. -/
structure GenerationRequest where
  model : String
  prompt : String
  parameters : List (String × JValue)

/-- Translation of `QueueResponse`. -/
structure QueueResponse where
  requestID : String
  status : String
deriving DecidableEq, Repr

/-- Translation of the local logic of `Client.SubmitGeneration`: unknown
models and invalid parameters are rejected before any request is made;
otherwise the queue's response `queueResp` is returned.  The validated
(normalized) parameter map is returned alongside, reflecting the in-place
mutation of `req.Parameters`. -/
def SubmitGeneration (req : GenerationRequest) (queueResp : QueueResponse) :
    Except FALError (QueueResponse × List (String × JValue)) :=
  match GetModel req.model with
  | none => .error { code := "invalid_model", key := req.model }
  | some model =>
    match model.ValidateParameters req.parameters with
    | .error e => .error e
    | .ok validated => .ok (queueResp, validated)

/-- Translation of the `numImages` extraction in `Client.GenerateImage`:
start from 1, and overwrite with the `num_images` entry when it is an `int`
or (truncated) `float64`. -/
def numImagesRequested (params : List (String × JValue)) : ℤ :=
  match lookupKey "num_images" params with
  | some (.vInt n) => n
  | some (.vFloat f) => ratTrunc f
  | _ => 1

/-- Whether an `Except` result is a success. -/
def exceptOk {ε α : Type} : Except ε α → Bool
  | .ok _ => true
  | .error _ => false

/-- A value that passes the `typeCheck` of a numeric (`integer` or `float`)
parameter: used to state the range-validation claims. -/
def numericWellTyped (p : Parameter) (v : JValue) : Bool :=
  if p.ptype = "integer" then
    match v with
    | .vInt _ => true
    | .vFloat f => ratIsIntegral f
    | _ => false
  else if p.ptype = "float" then
    match v with
    | .vInt _ => true
    | .vFloat _ => true
    | _ => false
  else false

/-- Translation of `Client.GenerateImage`: submit (model check + parameter
validation), poll (abstracted to its terminal response `pollResult`), then
set `result.Cost = model.CostPerImage * float64(numImages)` — where
`numImages` comes from the requested `num_images` parameter — and
`result.RequestID` from the queue response. -/
def GenerateImage (req : GenerationRequest) (queueResp : QueueResponse)
    (pollResult : GenerationResponse) : Except FALError GenerationResponse :=
  match SubmitGeneration req queueResp with
  | .error e => .error e
  | .ok (q, validated) =>
    match GetModel req.model with
    | none => .error { code := "invalid_model", key := req.model }
    | some model =>
      let numImages := numImagesRequested validated
      .ok { pollResult with
            cost := model.costPerImage * (numImages : ℚ)
          , requestID := q.requestID }

end Fal

/-! ## Theorems -/

namespace Fal

/-- The image of `getBaseModelID` is one of the two coarse forms or the
input itself. -/
theorem getBaseModelID_cases (m : List Char) :
    getBaseModelID m = "fal-ai/flux".toList ∨
    getBaseModelID m = "fal-ai/hidream".toList ∨
    getBaseModelID m = m := by
  unfold getBaseModelID
  split_ifs <;> simp

/-- C4: `convertToFALModelID` is idempotent on every non-empty identifier
(no double prefix), and `getBaseModelID` is idempotent on every identifier.
(On the empty identifier the first function is *not* idempotent; see the
counterexample.) -/
theorem modelID_normalization_idempotent :
    (∀ m : List Char, m ≠ [] →
      convertToFALModelID (convertToFALModelID m) = convertToFALModelID m) ∧
    (∀ m : List Char,
      getBaseModelID (getBaseModelID m) = getBaseModelID m) := by
  constructor
  · intro m hm
    by_cases h : 7 < m.length ∧ m.take 7 = falPrefix
    · have h1 : convertToFALModelID m = m := by
        rw [convertToFALModelID, if_pos h]
      rw [h1]; exact h1
    · have hpre : falPrefix.length = 7 := by decide
      have h1 : convertToFALModelID m = falPrefix ++ m := by
        rw [convertToFALModelID, if_neg h]
      have hcond : 7 < (falPrefix ++ m).length ∧ (falPrefix ++ m).take 7 = falPrefix := by
        constructor
        · have : m.length ≠ 0 := fun h0 => hm (List.eq_nil_of_length_eq_zero h0)
          simp only [List.length_append, hpre]
          omega
        · exact List.take_left' hpre
      rw [h1, convertToFALModelID, if_pos hcond]
  · intro m
    rcases getBaseModelID_cases m with h | h | h
    · rw [h]; decide
    · rw [h]; decide
    · rw [h]; exact h

/-- C4 counterexample: on the empty identifier, the submission-form
normalization is not idempotent — it produces a doubled prefix. -/
theorem convertToFALModelID_not_idempotent_on_empty :
    convertToFALModelID (convertToFALModelID []) ≠ convertToFALModelID [] := by
  decide

/-- C4 witness: idempotence exercised on a concrete identifier. -/
theorem modelID_normalization_idempotent_witness :
    convertToFALModelID (convertToFALModelID "flux/schnell".toList) =
      convertToFALModelID "flux/schnell".toList ∧
    getBaseModelID (getBaseModelID "flux/schnell".toList) =
      getBaseModelID "flux/schnell".toList := by
  exact ⟨modelID_normalization_idempotent.1 "flux/schnell".toList (by decide),
    modelID_normalization_idempotent.2 "flux/schnell".toList⟩

/-- C5: the status-check and cancel operations do *not* derive the endpoint
identifier from the job's own model: both hardcode the default
`"flux/schnell"`, so for a job submitted with the `hidream/hidream-i1-dev`
model the identifier they address differs from the coarse form of the job's
model.  (The source marks this `TEMPORARY ... should be fixed`.) -/
theorem checkStatus_cancel_use_fixed_default :
    checkStatusBaseModelID = "fal-ai/flux".toList ∧
    cancelGenerationBaseModelID = "fal-ai/flux".toList ∧
    checkStatusBaseModelID ≠
      checkStatusWithModelBaseModelID (convertToFALModelID "hidream/hidream-i1-dev".toList) ∧
    cancelGenerationBaseModelID ≠
      getBaseModelID (convertToFALModelID "hidream/hidream-i1-dev".toList) := by
  decide

end Fal

namespace Auth

/-- C9: after any sequence of broker operations, a `Stats` call classifies
every stored session as exactly one of active or expired:
`active + expired = total`. -/
theorem stats_active_add_expired_eq_total (timeout : Nat) (ops : List StoreOp) (now : Nat) :
    ((applyOps ops (NewSessionStore timeout)).Stats now).activeSessions +
      ((applyOps ops (NewSessionStore timeout)).Stats now).expiredSessions =
      ((applyOps ops (NewSessionStore timeout)).Stats now).totalSessions := by
  simp only [SessionStore.Stats]
  induction (applyOps ops (NewSessionStore timeout)).sessions with
  | nil => rfl
  | cons a t ih =>
    cases h : a.2.IsExpired now <;> simp [List.countP_cons, h] <;> omega

end Auth

namespace Auth

/-- Keys absent from an association list look up to `none`. -/
theorem lookupStr_eq_none_of_not_mem_keys {α : Type} (k : String)
    (l : List (String × α)) (h : k ∉ l.map Prod.fst) : lookupStr k l = none := by
  induction l with
  | nil => rfl
  | cons a t ih =>
    simp only [List.map_cons, List.mem_cons] at h
    push_neg at h
    rw [lookupStr, if_neg (fun he => h.1 he.symm)]
    exact ih h.2

/-- With duplicate-free keys, erasing a key makes its lookup fail. -/
theorem lookupStr_mapErase_self {α : Type} (k : String) (l : List (String × α))
    (h : (l.map Prod.fst).Nodup) : lookupStr k (mapErase k l) = none := by
  induction l with
  | nil => rfl
  | cons a t ih =>
    simp only [List.map_cons, List.nodup_cons] at h
    rw [mapErase]
    by_cases hk : a.1 = k
    · rw [if_pos hk]
      exact lookupStr_eq_none_of_not_mem_keys k t (hk ▸ h.1)
    · rw [if_neg hk, lookupStr, if_neg hk]
      exact ih h.2

/-- C3 (amended): a session created at `now0` in a broker with TTL `timeout`
is returned by `Get` at every time `t ≤ now0 + timeout` (the boundary
included, since `IsExpired` is `now.After(expiresAt)`), and at every
`t > now0 + timeout` `Get` fails with the expired error and removes the
entry, after which `Stats().total` no longer counts it. -/
theorem get_respects_ttl (timeout now0 t : Nat) (sessionID userID falToken : String)
    (hid : sessionID ≠ "") (huid : userID ≠ "") (htok : falToken ≠ "") :
    ∃ st1 : SessionStore,
      (NewSessionStore timeout).Create now0 sessionID userID falToken =
        .ok (sessionID, st1) ∧
      (t ≤ now0 + timeout →
        (st1.Get t sessionID).1 =
          .ok { id := sessionID, userID := userID, falToken := falToken
              , createdAt := now0, expiresAt := now0 + timeout } ∧
        (st1.Get t sessionID).2 = st1) ∧
      (now0 + timeout < t →
        (st1.Get t sessionID).1 = .error "session expired" ∧
        ((st1.Get t sessionID).2.Stats t).totalSessions = 0) := by
  refine ⟨⟨[(sessionID, ⟨sessionID, userID, falToken, now0, now0 + timeout⟩)], timeout⟩,
    ?_, ?_, ?_⟩
  · simp [SessionStore.Create, NewSessionStore, huid, htok, mapInsert]
  · intro ht
    have hexp : Session.IsExpired
        { id := sessionID, userID := userID, falToken := falToken
        , createdAt := now0, expiresAt := now0 + timeout } t = false := by
      simp only [Session.IsExpired, decide_eq_false_iff_not]
      omega
    simp [SessionStore.Get, hid, lookupStr, hexp]
  · intro ht
    have hexp : Session.IsExpired
        { id := sessionID, userID := userID, falToken := falToken
        , createdAt := now0, expiresAt := now0 + timeout } t = true := by
      simp only [Session.IsExpired, decide_eq_true_eq]
      omega
    simp [SessionStore.Get, hid, lookupStr, hexp, SessionStore.Delete,
      mapErase, SessionStore.Stats]

/-- C3 witness: the amended theorem at a concrete instance. -/
theorem get_respects_ttl_witness :
    ∃ st1 : SessionStore,
      (NewSessionStore 5).Create 0 "sid" "u" "tok" = .ok ("sid", st1) ∧
      ((3 : Nat) ≤ 0 + 5 →
        (st1.Get 3 "sid").1 =
          .ok { id := "sid", userID := "u", falToken := "tok"
              , createdAt := 0, expiresAt := 0 + 5 } ∧
        (st1.Get 3 "sid").2 = st1) ∧
      (0 + 5 < (3 : Nat) →
        (st1.Get 3 "sid").1 = .error "session expired" ∧
        ((st1.Get 3 "sid").2.Stats 3).totalSessions = 0) :=
  get_respects_ttl 5 0 3 "sid" "u" "tok" (by decide) (by decide) (by decide)

/-- C3 counterexample: at exactly `t = T` (session created at time 0 with
TTL 5, read at time 5) `Get` still succeeds, contradicting the claim that it
fails with the expired error for every `t ≥ T`. -/
theorem get_at_exact_expiry_succeeds :
    (NewSessionStore 5).Create 0 "sid" "u" "tok" =
      .ok ("sid",
        { sessions :=
            [("sid", { id := "sid", userID := "u", falToken := "tok"
                     , createdAt := 0, expiresAt := 5 })]
        , timeout := 5 }) ∧
    (SessionStore.Get
      { sessions :=
          [("sid", { id := "sid", userID := "u", falToken := "tok"
                   , createdAt := 0, expiresAt := 5 })]
      , timeout := 5 } 5 "sid").1 =
      .ok { id := "sid", userID := "u", falToken := "tok"
          , createdAt := 0, expiresAt := 5 } := by
  exact ⟨rfl, rfl⟩

/-- C6 (amended): `Cleanup` keeps exactly the sessions with
`expiresAt ≥ now` — the boundary `expiresAt = now` is kept, since removal is
governed by `now.After(expiresAt)` — and every removed session is zeroed
(its cleared value has an empty secret) before removal. -/
theorem cleanup_removes_exactly_strictly_expired (st : SessionStore) (now : Nat) :
    (∀ kv : String × Session,
      kv ∈ (st.Cleanup now).1.sessions ↔ kv ∈ st.sessions ∧ now ≤ kv.2.expiresAt) ∧
    (∀ s ∈ (st.Cleanup now).2, s.falToken = "") ∧
    (∀ kv : String × Session, kv ∈ st.sessions → kv.2.expiresAt < now →
      kv.2.Clear ∈ (st.Cleanup now).2) := by
  refine ⟨?_, ?_, ?_⟩
  · intro kv
    simp [SessionStore.Cleanup, List.mem_filter, Session.IsExpired, Nat.not_lt]
  · intro s hs
    simp only [SessionStore.Cleanup, List.mem_map] at hs
    obtain ⟨kv, _, rfl⟩ := hs
    rfl
  · intro kv hin hexp
    simp only [SessionStore.Cleanup, List.mem_map]
    refine ⟨kv, ?_, rfl⟩
    simp [List.mem_filter, Session.IsExpired, hin, hexp]

/-- C6 witness: the amended theorem at a concrete store. -/
theorem cleanup_removes_exactly_strictly_expired_witness :
    Session.Clear { id := "a", userID := "u", falToken := "tok"
                  , createdAt := 0, expiresAt := 7 } ∈
      (SessionStore.Cleanup
        { sessions :=
            [("a", { id := "a", userID := "u", falToken := "tok"
                   , createdAt := 0, expiresAt := 7 })]
        , timeout := 9 } 9).2 :=
  (cleanup_removes_exactly_strictly_expired
      { sessions :=
          [("a", { id := "a", userID := "u", falToken := "tok"
                 , createdAt := 0, expiresAt := 7 })]
      , timeout := 9 } 9).2.2
    ("a", { id := "a", userID := "u", falToken := "tok"
          , createdAt := 0, expiresAt := 7 })
    (by simp) (by decide)

/-- C6 counterexample: a session whose `expiresAt` equals the current time
(`expiresAt = now = 7`, so `expiresAt ≤ now`) is *not* removed by `Cleanup`,
contradicting the claim that the boundary is included. -/
theorem cleanup_keeps_boundary_session :
    (SessionStore.Cleanup
      { sessions :=
          [("a", { id := "a", userID := "u", falToken := "tok"
                 , createdAt := 0, expiresAt := 7 })]
      , timeout := 9 } 7).1.sessions =
      [("a", { id := "a", userID := "u", falToken := "tok"
             , createdAt := 0, expiresAt := 7 })] ∧
    ({ id := "a", userID := "u", falToken := "tok"
     , createdAt := 0, expiresAt := 7 } : Session).expiresAt ≤ 7 := by
  exact ⟨rfl, by decide⟩

end Auth

namespace Auth

/-- C8: `Create` never evicts: two successive `Create` calls for the same
owner (fresh ids, no intervening `DeleteByOwner`) leave two distinct live
sessions for that owner in the store, and `GetByOwner` then returns one of
them. -/
theorem create_does_not_evict (timeout now : Nat) (id1 id2 userID tok1 tok2 : String)
    (hne : id1 ≠ id2) (huid : userID ≠ "") (h1 : tok1 ≠ "") (h2 : tok2 ≠ "") :
    ∃ st1 st2 : SessionStore,
      (NewSessionStore timeout).Create now id1 userID tok1 = .ok (id1, st1) ∧
      st1.Create now id2 userID tok2 = .ok (id2, st2) ∧
      st2.sessions.length = 2 ∧
      lookupStr id1 st2.sessions =
        some { id := id1, userID := userID, falToken := tok1
             , createdAt := now, expiresAt := now + timeout } ∧
      lookupStr id2 st2.sessions =
        some { id := id2, userID := userID, falToken := tok2
             , createdAt := now, expiresAt := now + timeout } ∧
      Session.IsExpired { id := id1, userID := userID, falToken := tok1
                        , createdAt := now, expiresAt := now + timeout } now = false ∧
      Session.IsExpired { id := id2, userID := userID, falToken := tok2
                        , createdAt := now, expiresAt := now + timeout } now = false ∧
      (st2.GetUserSession now userID =
          .ok { id := id1, userID := userID, falToken := tok1
              , createdAt := now, expiresAt := now + timeout } ∨
        st2.GetUserSession now userID =
          .ok { id := id2, userID := userID, falToken := tok2
              , createdAt := now, expiresAt := now + timeout }) := by
  refine ⟨⟨[(id1, ⟨id1, userID, tok1, now, now + timeout⟩)], timeout⟩,
    ⟨[(id1, ⟨id1, userID, tok1, now, now + timeout⟩),
      (id2, ⟨id2, userID, tok2, now, now + timeout⟩)], timeout⟩,
    ?_, ?_, ?_, ?_, ?_, ?_, ?_, ?_⟩
  · simp [SessionStore.Create, NewSessionStore, huid, h1, mapInsert]
  · simp [SessionStore.Create, huid, h2, mapInsert, hne]
  · rfl
  · simp [lookupStr]
  · simp [lookupStr, hne]
  · simp [Session.IsExpired]
  · simp [Session.IsExpired]
  · left
    have hexp : Session.IsExpired ⟨id1, userID, tok1, now, now + timeout⟩ now = false := by
      simp [Session.IsExpired]
    simp [SessionStore.GetUserSession, huid, List.find?, hexp]

/-- C8 witness: the theorem at concrete inputs. -/
theorem create_does_not_evict_witness :
    ∃ st1 st2 : SessionStore,
      (NewSessionStore 10).Create 0 "id1" "u" "tokA" = .ok ("id1", st1) ∧
      st1.Create 0 "id2" "u" "tokB" = .ok ("id2", st2) ∧
      st2.sessions.length = 2 ∧
      lookupStr "id1" st2.sessions =
        some { id := "id1", userID := "u", falToken := "tokA"
             , createdAt := 0, expiresAt := 0 + 10 } ∧
      lookupStr "id2" st2.sessions =
        some { id := "id2", userID := "u", falToken := "tokB"
             , createdAt := 0, expiresAt := 0 + 10 } ∧
      Session.IsExpired { id := "id1", userID := "u", falToken := "tokA"
                        , createdAt := 0, expiresAt := 0 + 10 } 0 = false ∧
      Session.IsExpired { id := "id2", userID := "u", falToken := "tokB"
                        , createdAt := 0, expiresAt := 0 + 10 } 0 = false ∧
      (st2.GetUserSession 0 "u" =
          .ok { id := "id1", userID := "u", falToken := "tokA"
              , createdAt := 0, expiresAt := 0 + 10 } ∨
        st2.GetUserSession 0 "u" =
          .ok { id := "id2", userID := "u", falToken := "tokB"
              , createdAt := 0, expiresAt := 0 + 10 }) :=
  create_does_not_evict 10 0 "id1" "id2" "u" "tokA" "tokB"
    (by decide) (by decide) (by decide) (by decide)

/-- C10 (implicit claim): `Renew` (`ExtendSession`) on a present but expired
session returns the already-expired error and leaves the store completely
unchanged — the expired entry stays, secret intact; it is gone only after a
later `Get` (which deletes it) or `Sweep` (which drops every strictly
expired entry). -/
theorem extendSession_expired_error_leaves_store (st : SessionStore) (now : Nat)
    (sessionID : String) (s : Session) (hid : sessionID ≠ "")
    (hl : lookupStr sessionID st.sessions = some s) (hexp : s.expiresAt < now)
    (hnodup : (st.sessions.map Prod.fst).Nodup) :
    (st.ExtendSession now sessionID).1 = .error "session already expired" ∧
    (st.ExtendSession now sessionID).2 = st ∧
    (st.Get now sessionID).1 = .error "session expired" ∧
    lookupStr sessionID ((st.Get now sessionID).2).sessions = none ∧
    (sessionID, s) ∉ (st.Cleanup now).1.sessions := by
  have hexpb : s.IsExpired now = true := by
    simp only [Session.IsExpired, decide_eq_true_eq]; exact hexp
  refine ⟨?_, ?_, ?_, ?_, ?_⟩
  · simp [SessionStore.ExtendSession, hid, hl, hexpb]
  · simp [SessionStore.ExtendSession, hid, hl, hexpb]
  · simp [SessionStore.Get, hid, hl, hexpb]
  · simp only [SessionStore.Get, if_neg hid, hl, hexpb, if_true,
      SessionStore.Delete, if_neg hid]
    simp [lookupStr_mapErase_self sessionID st.sessions hnodup]
  · simp [SessionStore.Cleanup, List.mem_filter, hexpb]

/-- C10 witness: the theorem at a concrete expired session. -/
theorem extendSession_expired_error_leaves_store_witness :
    (SessionStore.ExtendSession
        { sessions :=
            [("sid", { id := "sid", userID := "u", falToken := "tok"
                     , createdAt := 0, expiresAt := 5 })]
        , timeout := 5 } 6 "sid").1 = .error "session already expired" ∧
    (SessionStore.ExtendSession
        { sessions :=
            [("sid", { id := "sid", userID := "u", falToken := "tok"
                     , createdAt := 0, expiresAt := 5 })]
        , timeout := 5 } 6 "sid").2 =
      { sessions :=
          [("sid", { id := "sid", userID := "u", falToken := "tok"
                   , createdAt := 0, expiresAt := 5 })]
      , timeout := 5 } ∧
    (SessionStore.Get
        { sessions :=
            [("sid", { id := "sid", userID := "u", falToken := "tok"
                     , createdAt := 0, expiresAt := 5 })]
        , timeout := 5 } 6 "sid").1 = .error "session expired" ∧
    lookupStr "sid" ((SessionStore.Get
        { sessions :=
            [("sid", { id := "sid", userID := "u", falToken := "tok"
                     , createdAt := 0, expiresAt := 5 })]
        , timeout := 5 } 6 "sid").2).sessions = none ∧
    ("sid", ({ id := "sid", userID := "u", falToken := "tok"
             , createdAt := 0, expiresAt := 5 } : Session)) ∉
      (SessionStore.Cleanup
        { sessions :=
            [("sid", { id := "sid", userID := "u", falToken := "tok"
                     , createdAt := 0, expiresAt := 5 })]
        , timeout := 5 } 6).1.sessions :=
  extendSession_expired_error_leaves_store
    { sessions :=
        [("sid", { id := "sid", userID := "u", falToken := "tok"
                 , createdAt := 0, expiresAt := 5 })]
    , timeout := 5 } 6 "sid"
    { id := "sid", userID := "u", falToken := "tok", createdAt := 0, expiresAt := 5 }
    (by decide) (by simp [lookupStr]) (by decide) (by simp)

end Auth

namespace Crypto

/-- C1: round-trip identity of the credential vault.  For every non-empty
plaintext and password, every fresh salt and nonce of the sizes the source
generates, every key-derivation function and every AEAD and base64 codec
meeting their library contracts, `Encrypt` succeeds and `Decrypt` of its
output with the same password returns exactly the original plaintext. -/
theorem encrypt_decrypt_roundtrip (e : EncryptionService) (C : B64Codec) (A : AEAD)
    (kdf : Bytes → Bytes → Nat → Bytes) (salt nonce plaintext password : Bytes)
    (hsalt : salt.length = SaltSize) (hnonce : nonce.length = NonceSize)
    (hpt : plaintext ≠ []) (hpw : password ≠ []) :
    ∃ r : EncryptResult,
      e.Encrypt C A kdf salt nonce plaintext password = some r ∧
      e.Decrypt C A kdf r.encrypted r.salt password = .ok plaintext := by
  have key := e.deriveKey kdf password salt
  refine ⟨{ encrypted := C.encode (nonce ++ A.sealAE (e.deriveKey kdf password salt) nonce plaintext)
          , salt := C.encode salt }, ?_, ?_⟩
  · rw [EncryptionService.Encrypt, if_neg hpt, if_neg hpw]
  · have hctlen : (nonce ++ A.sealAE (e.deriveKey kdf password salt) nonce plaintext).length
        = NonceSize + (plaintext.length + 16) := by
      rw [List.length_append, hnonce, A.sealAE_length]
    have hencne : C.encode (nonce ++ A.sealAE (e.deriveKey kdf password salt) nonce plaintext) ≠ [] := by
      intro h0
      have := C.encode_eq_nil _ h0
      have hl := congrArg List.length this
      rw [hctlen] at hl
      simp [NonceSize] at hl
    have hsaltne : C.encode salt ≠ [] := by
      intro h0
      have := C.encode_eq_nil _ h0
      have hl := congrArg List.length this
      rw [hsalt] at hl
      simp [SaltSize] at hl
    rw [EncryptionService.Decrypt, if_neg hencne, if_neg hsaltne, if_neg hpw,
      C.decode_encode, C.decode_encode]
    have hnotshort : ¬ (nonce ++ A.sealAE (e.deriveKey kdf password salt) nonce plaintext).length
        < NonceSize + 16 := by
      rw [hctlen]; omega
    have htake : (nonce ++ A.sealAE (e.deriveKey kdf password salt) nonce plaintext).take NonceSize
        = nonce := List.take_left' hnonce
    have hdrop : (nonce ++ A.sealAE (e.deriveKey kdf password salt) nonce plaintext).drop NonceSize
        = A.sealAE (e.deriveKey kdf password salt) nonce plaintext := List.drop_left' hnonce
    simp only [if_neg hnotshort, htake, hdrop, A.openAE_sealAE]

/-- C1 witness: the round trip exercised with concrete computable instances
(the identity codec, the zero-tag AEAD, a concrete KDF) on concrete inputs. -/
theorem encrypt_decrypt_roundtrip_witness :
    ∃ r : EncryptResult,
      EncryptionService.Encrypt ⟨100000⟩ idCodec padAEAD
        (fun pw s i => pw ++ s ++ [i]) (List.replicate 32 0) (List.replicate 12 1)
        [42] [7] = some r ∧
      EncryptionService.Decrypt ⟨100000⟩ idCodec padAEAD
        (fun pw s i => pw ++ s ++ [i]) r.encrypted r.salt [7] = .ok [42] :=
  encrypt_decrypt_roundtrip ⟨100000⟩ idCodec padAEAD
    (fun pw s i => pw ++ s ++ [i]) (List.replicate 32 0) (List.replicate 12 1)
    [42] [7] (by simp [SaltSize]) (by simp [NonceSize]) (by simp) (by simp)

end Crypto

namespace Fal

/-- C2 (amended): for every completed generation, the cost equals the
model's `costPerImage` multiplied by the *requested* image count — the
`num_images` entry of the (validated) parameters, defaulting to 1 — for
every polled result, i.e. independently of how many artifacts the result
actually carries. -/
theorem generateImage_cost (req : GenerationRequest) (queueResp : QueueResponse)
    (pollResult : GenerationResponse) (model : ModelInfo)
    (validated : List (String × JValue))
    (hm : GetModel req.model = some model)
    (hv : model.ValidateParameters req.parameters = .ok validated) :
    GenerateImage req queueResp pollResult =
      .ok { pollResult with
            cost := model.costPerImage * ((numImagesRequested validated : ℤ) : ℚ)
          , requestID := queueResp.requestID } := by
  simp [GenerateImage, SubmitGeneration, hm, hv]

/-- C2 witness: the theorem at a concrete request whose result carries two
artifacts. -/
theorem generateImage_cost_witness :
    GenerateImage
      { model := "flux/schnell", prompt := "p"
      , parameters := [("num_images", .vInt 2)] }
      { requestID := "rq", status := "IN_QUEUE" }
      { requestID := "", status := "completed"
      , images := [{ url := "u", thumbnailURL := "" }
                  , { url := "v", thumbnailURL := "" }], cost := 0 }
    = .ok { requestID := "rq", status := "completed"
          , images := [{ url := "u", thumbnailURL := "" }
                      , { url := "v", thumbnailURL := "" }]
          , cost := fluxSchnell.costPerImage *
              ((numImagesRequested [("num_images", .vInt 2)] : ℤ) : ℚ) } :=
  generateImage_cost
    { model := "flux/schnell", prompt := "p"
    , parameters := [("num_images", .vInt 2)] }
    { requestID := "rq", status := "IN_QUEUE" }
    { requestID := "", status := "completed"
    , images := [{ url := "u", thumbnailURL := "" }
                , { url := "v", thumbnailURL := "" }], cost := 0 }
    fluxSchnell [("num_images", .vInt 2)] rfl rfl

/-- C2 counterexample: a request asking for `num_images = 2` on
`flux/schnell` (`costPerImage = 0.003`) whose result carries only one
artifact is billed `0.006 = 0.003 * 2` — the requested count — and not
`0.003 * 1`, the returned artifact count the claim requires. -/
theorem generateImage_bills_requested_not_returned_count :
    GenerateImage
      { model := "flux/schnell", prompt := "p"
      , parameters := [("num_images", .vInt 2)] }
      { requestID := "rq", status := "IN_QUEUE" }
      { requestID := "", status := "completed"
      , images := [{ url := "u", thumbnailURL := "" }], cost := 0 }
    = .ok { requestID := "rq", status := "completed"
          , images := [{ url := "u", thumbnailURL := "" }], cost := 3/500 } ∧
    (3/500 : ℚ) ≠ (0.003 : ℚ) * 1 := by
  constructor
  · have h : GenerateImage
        { model := "flux/schnell", prompt := "p"
        , parameters := [("num_images", .vInt 2)] }
        { requestID := "rq", status := "IN_QUEUE" }
        { requestID := "", status := "completed"
        , images := [{ url := "u", thumbnailURL := "" }], cost := 0 }
      = .ok { requestID := "rq", status := "completed"
            , images := [{ url := "u", thumbnailURL := "" }]
            , cost := (0.003 : Rat) * ((2 : Int) : Rat) } := rfl
    rw [h]
    norm_num
  · norm_num
end Fal

namespace Fal

/-- A successful association-list lookup is a member. -/
theorem lookupKey_mem {α : Type} {k : String} {l : List (String × α)} {v : α}
    (h : lookupKey k l = some v) : (k, v) ∈ l := by
  induction l with
  | nil => simp [lookupKey] at h
  | cons a t ih =>
    obtain ⟨k1, v1⟩ := a
    rw [lookupKey] at h
    by_cases hk : k1 = k
    · rw [if_pos hk] at h
      obtain rfl := Option.some.inj h
      exact hk ▸ List.mem_cons_self _ _
    · rw [if_neg hk] at h
      exact List.mem_cons_of_mem _ (ih h)

/-- Registry fact: every parameter of a registry model carrying a `min` or
`max` bound is numeric (`integer` or `float`) and has no enum options. -/
theorem registry_numeric_facts :
    ∀ pr ∈ SupportedModels, ∀ kp ∈ pr.2.parameters,
      (kp.2.min ≠ none ∨ kp.2.max ≠ none) →
      ((kp.2.ptype = "integer" ∨ kp.2.ptype = "float") ∧ kp.2.options = []) := by
  decide

/-- Registry fact: in every registry parameter the bounds are ordered
(`min ≤ max` whenever both are present, phrased with defaults so it is
decidable). -/
theorem registry_min_le_max :
    ∀ pr ∈ SupportedModels, ∀ kp ∈ pr.2.parameters,
      kp.2.min.getD 0 ≤ kp.2.max.getD (kp.2.min.getD 0) := by
  decide

/-- Registry fact: the only enum-bearing key, `image_size`, has the
`object` type (so its enum check lives in the special-cased branch). -/
theorem registry_imgsize_object :
    ∀ pr ∈ SupportedModels, ∀ kp ∈ pr.2.parameters,
      kp.1 = "image_size" → kp.2.ptype = "object" := by
  decide

/-- `ValidateParameters` on a one-entry map reduces to `validateOne`. -/
theorem validateParameters_singleton (m : ModelInfo) (k : String) (v : JValue) :
    m.ValidateParameters [(k, v)] =
      match validateOne m k v with
      | .error e => .error e
      | .ok v1 => .ok [(k, v1)] := by
  rw [ModelInfo.ValidateParameters]
  cases validateOne m k v <;> rfl

/-- The type check succeeds on a numeric well-typed value. -/
theorem typeCheck_numeric_ok (p : Parameter) (k : String) (v : JValue)
    (hwt : numericWellTyped p v = true) :
    ∃ v1, typeCheck p k v = .ok v1 := by
  by_cases hint : p.ptype = "integer"
  · cases v with
    | vInt n => exact ⟨.vInt n, by simp [typeCheck, hint]⟩
    | vFloat f =>
      have hfi : ratIsIntegral f = true := by
        simpa [numericWellTyped, hint] using hwt
      exact ⟨.vInt (ratTrunc f), by simp [typeCheck, hint, hfi]⟩
    | vStr s => exact absurd hwt (by simp [numericWellTyped, hint])
    | vObj o => exact absurd hwt (by simp [numericWellTyped, hint])
    | vNull => exact absurd hwt (by simp [numericWellTyped, hint])
  · by_cases hfl : p.ptype = "float"
    · cases v with
      | vInt n => exact ⟨.vFloat (n : ℚ), by simp [typeCheck, hint, hfl]⟩
      | vFloat f => exact ⟨.vFloat f, by simp [typeCheck, hint, hfl]⟩
      | vStr s => exact absurd hwt (by simp [numericWellTyped, hint, hfl])
      | vObj o => exact absurd hwt (by simp [numericWellTyped, hint, hfl])
      | vNull => exact absurd hwt (by simp [numericWellTyped, hint, hfl])
    · exact absurd hwt (by simp [numericWellTyped, hint, hfl])

/-- A numeric value strictly below `min` is rejected. -/
theorem validate_rejects_below_min (m : ModelInfo) (k : String) (p : Parameter)
    (v : JValue) (lo : ℚ) (hp : lookupKey k m.parameters = some p)
    (hlo : p.min = some lo) (hwt : numericWellTyped p v = true)
    (hlt : numValue v < lo) :
    exceptOk (m.ValidateParameters [(k, v)]) = false := by
  obtain ⟨v1, hv1⟩ := typeCheck_numeric_ok p k v hwt
  have hbm : belowMin p v = true := by simp [belowMin, hlo, hlt]
  rw [validateParameters_singleton]
  simp [validateOne, hp, hv1, hbm, exceptOk]

/-- A numeric value strictly above `max` is rejected. -/
theorem validate_rejects_above_max (m : ModelInfo) (k : String) (p : Parameter)
    (v : JValue) (hi : ℚ) (hp : lookupKey k m.parameters = some p)
    (hhi : p.max = some hi) (hwt : numericWellTyped p v = true)
    (hgt : hi < numValue v) :
    exceptOk (m.ValidateParameters [(k, v)]) = false := by
  obtain ⟨v1, hv1⟩ := typeCheck_numeric_ok p k v hwt
  have ham : aboveMax p v = true := by simp [aboveMax, hhi, hgt]
  rw [validateParameters_singleton]
  cases hbm : belowMin p v
  · simp [validateOne, hp, hv1, hbm, ham, exceptOk]
  · simp [validateOne, hp, hv1, hbm, exceptOk]

/-- A numeric well-typed value whose range checks pass is accepted (for a
parameter without enum options). -/
theorem validate_accepts_in_range (m : ModelInfo) (k : String) (p : Parameter)
    (v : JValue) (hp : lookupKey k m.parameters = some p)
    (hopts : p.options = []) (hwt : numericWellTyped p v = true)
    (hbm : belowMin p v = false) (ham : aboveMax p v = false) :
    exceptOk (m.ValidateParameters [(k, v)]) = true := by
  obtain ⟨v1, hv1⟩ := typeCheck_numeric_ok p k v hwt
  rw [validateParameters_singleton]
  simp [validateOne, hp, hv1, hbm, ham, hopts, exceptOk]

/-- A string value not among the enum options of an option-bearing
parameter is rejected (given that an `image_size` key has object type, as in
the registry). -/
theorem validate_rejects_unknown_enum (m : ModelInfo) (k : String) (p : Parameter)
    (s : String) (hp : lookupKey k m.parameters = some p)
    (hopts : p.options ≠ []) (hmem : s ∉ p.options)
    (himg : k = "image_size" → p.ptype = "object") :
    exceptOk (m.ValidateParameters [(k, JValue.vStr s)]) = false := by
  rw [validateParameters_singleton]
  by_cases hint : p.ptype = "integer"
  · simp [validateOne, hp, typeCheck, hint, exceptOk]
  · by_cases hfl : p.ptype = "float"
    · simp [validateOne, hp, typeCheck, hint, hfl, exceptOk]
    · by_cases hobj : p.ptype = "object"
      · by_cases hk : k = "image_size"
        · have htc : typeCheck p k (.vStr s) = .error (invalidValue k) := by
            simp [typeCheck, hobj, hk, hopts, hmem]
          simp [validateOne, hp, htc, exceptOk]
        · have htc : typeCheck p k (.vStr s) = .error (invalidType k) := by
            simp [typeCheck, hobj, hk]
          simp [validateOne, hp, htc, exceptOk]
      · have hk : k ≠ "image_size" := fun h => hobj (himg h)
        have htc : typeCheck p k (.vStr s) = .ok (.vStr s) := by
          by_cases hstr : p.ptype = "string"
          · simp [typeCheck, hint, hfl, hstr]
          · simp [typeCheck, hint, hfl, hstr, hobj]
        cases hbm : belowMin p (.vStr s)
        · cases ham : aboveMax p (.vStr s)
          · simp [validateOne, hp, htc, hbm, ham, hopts, hk, hmem, exceptOk]
          · simp [validateOne, hp, htc, hbm, ham, exceptOk]
        · simp [validateOne, hp, htc, hbm, exceptOk]

/-- Keys absent from the model's schema are passed through unexamined. -/
theorem validate_passes_unknown_keys (m : ModelInfo) (params : List (String × JValue))
    (h : ∀ kv ∈ params, lookupKey kv.1 m.parameters = none) :
    m.ValidateParameters params = .ok params := by
  induction params with
  | nil => rfl
  | cons a t ih =>
    obtain ⟨k, v⟩ := a
    have hk := h (k, v) (List.mem_cons_self _ _)
    simp only at hk
    rw [ModelInfo.ValidateParameters]
    simp only [validateOne, hk]
    rw [ih (fun kv hkv => h kv (List.mem_cons_of_mem _ hkv))]

end Fal

namespace Fal

/-- C7: for every model in the registry and every parameter key with a
schema entry, `ValidateParameters` rejects a numeric value strictly below
`min` or strictly above `max`, accepts values exactly equal to `min` or
`max`, rejects a string value not among the entry's enum options, and
passes through unexamined any map all of whose keys are absent from the
schema. -/
theorem validateParameters_spec (nm : String) (m : ModelInfo)
    (hm : (nm, m) ∈ SupportedModels) :
    (∀ k p, lookupKey k m.parameters = some p →
      (∀ v lo, p.min = some lo → numericWellTyped p v = true →
        numValue v < lo → exceptOk (m.ValidateParameters [(k, v)]) = false) ∧
      (∀ v hi, p.max = some hi → numericWellTyped p v = true →
        hi < numValue v → exceptOk (m.ValidateParameters [(k, v)]) = false) ∧
      (∀ v lo, p.min = some lo → numericWellTyped p v = true →
        numValue v = lo → exceptOk (m.ValidateParameters [(k, v)]) = true) ∧
      (∀ v hi, p.max = some hi → numericWellTyped p v = true →
        numValue v = hi → exceptOk (m.ValidateParameters [(k, v)]) = true) ∧
      (∀ s : String, p.options ≠ [] → s ∉ p.options →
        exceptOk (m.ValidateParameters [(k, JValue.vStr s)]) = false)) ∧
    (∀ params, (∀ kv ∈ params, lookupKey kv.1 m.parameters = none) →
      m.ValidateParameters params = .ok params) := by
  refine ⟨?_, validate_passes_unknown_keys m⟩
  intro k p hp
  have hkp : (k, p) ∈ m.parameters := lookupKey_mem hp
  refine ⟨?_, ?_, ?_, ?_, ?_⟩
  · intro v lo hlo hwt hlt
    exact validate_rejects_below_min m k p v lo hp hlo hwt hlt
  · intro v hi hhi hwt hgt
    exact validate_rejects_above_max m k p v hi hp hhi hwt hgt
  · intro v lo hlo hwt heq
    have hnum := registry_numeric_facts (nm, m) hm (k, p) hkp (Or.inl (by simp [hlo]))
    have hbm : belowMin p v = false := by
      simp [belowMin, hlo, heq]
    have ham : aboveMax p v = false := by
      cases hhi : p.max with
      | none => simp [aboveMax, hhi]
      | some hi =>
        have hle := registry_min_le_max (nm, m) hm (k, p) hkp
        rw [hlo, hhi] at hle
        simp only [Option.getD_some] at hle
        have hnlt : ¬ hi < numValue v := by rw [heq]; exact not_lt.mpr hle
        simp [aboveMax, hhi, hnlt]
    exact validate_accepts_in_range m k p v hp hnum.2 hwt hbm ham
  · intro v hi hhi hwt heq
    have hnum := registry_numeric_facts (nm, m) hm (k, p) hkp (Or.inr (by simp [hhi]))
    have hbm : belowMin p v = false := by
      cases hlo : p.min with
      | none => simp [belowMin, hlo]
      | some lo =>
        have hle := registry_min_le_max (nm, m) hm (k, p) hkp
        rw [hlo, hhi] at hle
        simp only [Option.getD_some] at hle
        have hnlt : ¬ numValue v < lo := by rw [heq]; exact not_lt.mpr hle
        simp [belowMin, hlo, hnlt]
    have ham : aboveMax p v = false := by simp [aboveMax, hhi, heq]
    exact validate_accepts_in_range m k p v hp hnum.2 hwt hbm ham
  · intro s hopts hmem
    exact validate_rejects_unknown_enum m k p s hp hopts hmem
      (fun hk => registry_imgsize_object (nm, m) hm (k, p) hkp hk)

/-- C7 witness: on `flux/schnell`, `num_images = 0` (strictly below the
minimum 1) is rejected. -/
theorem validateParameters_spec_witness :
    exceptOk (fluxSchnell.ValidateParameters [("num_images", JValue.vInt 0)]) = false :=
  ((validateParameters_spec "flux/schnell" fluxSchnell (List.mem_cons_self _ _)).1
      "num_images"
      { ptype := "integer", min := some 1, max := some 4
      , options := [], required := false }
      rfl).1 (JValue.vInt 0) 1 rfl rfl (by norm_num [numValue])

end Fal
